import Mathlib

/-!
Verification of the JobHunter job-fit scoring engine.

Shallow embedding of `src/scoring/engine.py`, `src/scoring/ai_scorer.py` and
the keyword data of `src/profile.py`.  Text is modelled as lists of
characters (`Str`); Python floats are modelled as rationals; Python `re`
word-boundary (`\b`) whole-word search, substring containment and the two
year-extraction regexes are modelled exactly for the (nonempty, ASCII)
keyword patterns the engine compiles.
-/

set_option maxRecDepth 4000

abbrev Str := List Char

def str (s : String) : Str := s.toList

/-- Python regex word character (`\w` with ASCII keywords): `[A-Za-z0-9_]`. -/
def isWordChar (c : Char) : Bool := c.isAlphanum || c == '_'

/-- `\b` at the start of the keyword: `prev` is the character before the
match position (`none` at the start of the text), `first` the keyword's
first character.  A word boundary holds when exactly one side is a word
character (text edges count as non-word). -/
def boundaryBefore (prev : Option Char) (first : Char) : Bool :=
  if isWordChar first then
    match prev with
    | Option.none => true
    | some p => !isWordChar p
  else
    match prev with
    | Option.none => false
    | some p => isWordChar p

/-- `\b` at the end of the keyword: `next` is the character after the match
(`none` at the end of the text), `last` the keyword's last character. -/
def boundaryAfter (next : Option Char) (last : Char) : Bool :=
  if isWordChar last then
    match next with
    | Option.none => true
    | some c => !isWordChar c
  else
    match next with
    | Option.none => false
    | some c => isWordChar c

/-- `re.search(r'\b' + re.escape(k) + r'\b', t)` succeeding with a match that
starts at position `i`.  All keyword patterns compiled by the engine are
nonempty, which the first conjunct records. -/
def occursAtB (k t : Str) (i : Nat) : Bool :=
  !k.isEmpty &&
  k.isPrefixOf (t.drop i) &&
  (match k.head? with
   | Option.none => false
   | some c => boundaryBefore (if i = 0 then Option.none else t[i-1]?) c) &&
  (match k.getLast? with
   | Option.none => false
   | some c => boundaryAfter t[i + k.length]? c)

/-- Whole-word search `bool(re.search(r'\b' + re.escape(k) + r'\b', t))`. -/
def wholeWordB (k t : Str) : Bool :=
  (List.range (t.length + 1)).any (occursAtB k t)

/-- Python substring containment `k in t`. -/
def substrB (k t : Str) : Bool :=
  (List.range (t.length + 1)).any (fun i => k.isPrefixOf (t.drop i))

/-- Python `str.lower()` (inputs considered are ASCII). -/
def strLower (t : Str) : Str := t.map Char.toLower

/-- Python `str.strip()`. -/
def stripStr (t : Str) : Str :=
  ((t.dropWhile Char.isWhitespace).reverse.dropWhile Char.isWhitespace).reverse

def digitVal (c : Char) : Nat := c.toNat - '0'.toNat

/-- Python `int` on a nonempty digit string. -/
def natOfDigits (ds : Str) : Nat := ds.foldl (fun acc c => 10 * acc + digitVal c) 0

/-- Character class `[-–to]` of the range pattern. -/
def isRangeSep (c : Char) : Bool := c == '-' || c == '–' || c == 't' || c == 'o'

/-- Greedy match of `(\d+)\+?\s*years` at the start of `t`: the captured
number and the rest of the text after the match.  For this pattern regex
backtracking can never turn a greedy failure into a success (a digit given
back by `\d+` can match none of `\+`, `\s`, `y`; similarly for the other
quantifiers), so the greedy reading is exact. -/
def matchSingleYears (t : Str) : Option (Nat × Str) :=
  let ds := t.takeWhile Char.isDigit
  if ds.isEmpty then Option.none
  else
    let r1 := t.dropWhile Char.isDigit
    let r2 := match r1 with
              | '+' :: rest => rest
              | _ => r1
    let r3 := r2.dropWhile Char.isWhitespace
    if (str "years").isPrefixOf r3 then
      some (natOfDigits ds, r3.drop 5)
    else Option.none

/-- Greedy match of `(\d+)\s*[-–to]+\s*(\d+)\s*years` at the start of `t`,
exact for the same reason as `matchSingleYears` (no character can be given
back by one greedy quantifier and accepted by the next token). -/
def matchRangeYears (t : Str) : Option ((Nat × Nat) × Str) :=
  let ds1 := t.takeWhile Char.isDigit
  if ds1.isEmpty then Option.none
  else
    let r1 := (t.dropWhile Char.isDigit).dropWhile Char.isWhitespace
    let sep := r1.takeWhile isRangeSep
    if sep.isEmpty then Option.none
    else
      let r2 := (r1.dropWhile isRangeSep).dropWhile Char.isWhitespace
      let ds2 := r2.takeWhile Char.isDigit
      if ds2.isEmpty then Option.none
      else
        let r3 := (r2.dropWhile Char.isDigit).dropWhile Char.isWhitespace
        if (str "years").isPrefixOf r3 then
          some ((natOfDigits ds1, natOfDigits ds2), r3.drop 5)
        else Option.none

/-- `re.findall(r'(\d+)\+?\s*years', t)`: left-to-right scan, resuming after
each match, one position further after each failure.  A successful match
consumes at least one character, so fuel `t.length` suffices. -/
def findSinglesF : Nat → Str → List Nat
  | 0, _ => []
  | _ + 1, [] => []
  | fuel + 1, c :: cs =>
    match matchSingleYears (c :: cs) with
    | some (n, rest) => n :: findSinglesF fuel rest
    | Option.none => findSinglesF fuel cs

def findSingles (t : Str) : List Nat := findSinglesF t.length t

/-- `re.findall(r'(\d+)\s*[-–to]+\s*(\d+)\s*years', t)`. -/
def findRangesF : Nat → Str → List (Nat × Nat)
  | 0, _ => []
  | _ + 1, [] => []
  | fuel + 1, c :: cs =>
    match matchRangeYears (c :: cs) with
    | some (p, rest) => p :: findRangesF fuel rest
    | Option.none => findRangesF fuel cs

def findRanges (t : Str) : List (Nat × Nat) := findRangesF t.length t

/-- Python `list(set(xs))`: duplicate removal.  CPython's set iteration
order is hash-dependent; it is modelled as first-occurrence order. -/
def dedupKeepFirst : List Str → List Str
  | [] => []
  | a :: as => a :: (dedupKeepFirst as).filter (fun b => !(b == a))

/-- The keyword data a `JobScorer` builds in `__init__` from
`HARVEY_PROFILE`: every list lowercased, `all_skills` flattened over the
skill categories and deduplicated. -/
structure Profile where
  all_skills : List Str
  industries : List Str
  roles : List Str
  visa_positive : List Str
  visa_negative : List Str

/-- A job posting as consumed by `score_job` (`job_data.get(...)` with
missing keys modelled as empty strings). -/
structure Job where
  title : Str
  company : Str
  description : Str
  location : Str

/-! ## Rounding (Python `round`, half-to-even) -/

/-- Python `round(q)` on floats rounds half to even (`Rat.floor` is the
computable floor; `ratFloor_eq_floor` below identifies it with `⌊q⌋`). -/
def pyRoundInt (q : ℚ) : ℤ :=
  let f := q.floor
  let r := q - (f : ℚ)
  if r < 1/2 then f
  else if 1/2 < r then f + 1
  else if f % 2 = 0 then f else f + 1

/-- Python `round(q, 1)`. -/
def round1 (q : ℚ) : ℚ := (pyRoundInt (10 * q) : ℚ) / 10

/-- Python `round(q, 3)`. -/
def round3 (q : ℚ) : ℚ := (pyRoundInt (1000 * q) : ℚ) / 1000

/-! ## The semantic provider (`src/scoring/ai_scorer.py`) -/

/-- `ai_details` dictionaries returned by the engine and the AI scorer,
keyed by their `method` field, with the data the dictionary carries. -/
inductive AiDetails where
  | disabled
  | notAvailable
  | aiUnavailable
  | insufficientText
  | aiError (e : Str)
  | sentenceTransformer (similarity : ℚ)
  deriving DecidableEq

/-- `AIJobScorer`: `modelSim` stands for the loaded sentence-transformer
model together with the precomputed profile embedding and the
encode-plus-cosine-similarity pipeline of `score_job_ai`'s `try` block; it
is `none` when the library or model failed to load
(`not self.model or self.profile_embedding is None`), and otherwise a
function producing the cosine similarity for a job or the exception the
pipeline raises. -/
structure AIJobScorer where
  modelSim : Option (Job → Except Str ℚ)

/-- The similarity-to-score map of `score_job_ai`: below 0.1 maps to 0,
above 0.6 to 100, linear in between (`(similarity - 0.1) / 0.5 * 100`). -/
def simToScore (s : ℚ) : ℚ :=
  if s < 1/10 then 0
  else if s > 6/10 then 100
  else (s - 1/10) / (1/2) * 100

/-- `AIJobScorer.score_job_ai`. -/
def scoreJobAi (A : AIJobScorer) (job : Job) : ℚ × AiDetails :=
  match A.modelSim with
  | Option.none => (50, .aiUnavailable)
  | some sim =>
    if job.description.isEmpty || job.description.length < 50 then
      (50, .insufficientText)
    else
      match sim job with
      | .error e => (50, .aiError e)
      | .ok s => (simToScore s, .sentenceTransformer (round3 s))

/-! ## Engine components (`src/scoring/engine.py`) -/

/-- `JobScorer.REQUIREMENT_HEADERS`. -/
def REQUIREMENT_HEADERS : List Str :=
  [str "requirements", str "qualifications", str "required qualifications",
   str "minimum qualifications", str "about you", str "you have", str "you are",
   str "what we\x27re looking for", str "what you\x27ll need", str "must have",
   str "basic qualifications", str "experience required", str "skills required"]

/-- The `stop_keywords` of `_extract_eligibility_sections`. -/
def stopKeywords : List Str :=
  [str "responsibilities", str "what you\x27ll do", str "about us",
   str "benefits", str "perks", str "our company", str "the role",
   str "why join", str "what we offer"]

/-- The line loop of `_extract_eligibility_sections`: `capture` is the
capture mode; a header line re-enables capture and is kept; in capture mode
a stop-phrase line disables capture, a blank line followed by another blank
line disables capture (blank lines are never kept), and any other line is
kept. -/
def extractLoop : Bool → List Str → List Str
  | _, [] => []
  | capture, line :: rest =>
    let lineLower := stripStr (strLower line)
    if REQUIREMENT_HEADERS.any (fun h => substrB h lineLower) then
      line :: extractLoop true rest
    else if capture then
      if stopKeywords.any (fun s => substrB s lineLower) then
        extractLoop false rest
      else if (stripStr line).isEmpty then
        (match rest with
         | next :: _ =>
           if (stripStr next).isEmpty then extractLoop false rest
           else extractLoop capture rest
         | [] => extractLoop capture rest)
      else line :: extractLoop capture rest
    else extractLoop capture rest

/-- `JobScorer._extract_eligibility_sections`. -/
def extractEligibilitySections (description : Str) : Str :=
  if description.isEmpty then []
  else List.intercalate [' '] (extractLoop false (description.splitOn '\n'))

/-- The score bands of `_score_technical` on the number of matches. -/
def techBand (n : Nat) : Nat :=
  if n ≥ 10 then 100
  else if n ≥ 6 then 80 + (n - 6) * 5
  else if n ≥ 3 then 50 + (n - 3) * 10
  else 30 + n * 10

/-- `JobScorer._score_technical`.  A skill is matched when it whole-word
matches the eligibility text (when that text is nonempty) or, failing that,
the general text; eligibility-section matches are also counted separately
for the +10 bonus. -/
def scoreTechnical (p : Profile) (text eligibilityText : Str) : ℚ × List Str :=
  let eligMatches := p.all_skills.filter
    (fun skill => !eligibilityText.isEmpty && wholeWordB skill eligibilityText)
  let matched := p.all_skills.filter
    (fun skill =>
      (!eligibilityText.isEmpty && wholeWordB skill eligibilityText) ||
      wholeWordB skill text)
  if matched.isEmpty then (0, [])
  else
    let score := techBand matched.length
    let score := if eligMatches.length ≥ 3 then min 100 (score + 10) else score
    (((min score 100 : Nat) : ℚ), matched)

/-- The `priority_keywords` of `_score_industry`. -/
def priorityKeywords : List Str :=
  [str "medical", str "medtech", str "healthcare", str "healthtech", str "health tech",
   str "clinical", str "medical device", str "diagnostics", str "digital health",
   str "agriculture", str "agtech", str "ag tech", str "agricultural", str "farm tech",
   str "livestock", str "precision agriculture", str "smart farming",
   str "fashion tech", str "fashiontech", str "apparel tech", str "textile tech",
   str "fashion ai", str "fashion technology", str "retail tech"]

/-- `JobScorer._score_industry`. -/
def scoreIndustry (p : Profile) (text : Str) : ℚ × List Str :=
  let textLower := strLower text
  let matched := p.industries.filter (fun ind => wholeWordB ind text)
  let hasPriority := matched.any (fun ind =>
    priorityKeywords.any (fun pri => substrB pri (strLower ind)) ||
    priorityKeywords.any (fun pri => substrB pri textLower))
  if matched.isEmpty then (0, [])
  else
    let score : Nat := if matched.length ≥ 3 then 95
      else if matched.length = 2 then 75 else 55
    let score := if hasPriority then min 100 (score + 15) else score
    ((score : ℚ), matched)

/-- `JobScorer._score_role`.  Note: the title check is a Python substring
containment test (`role_lower in title.lower()`) while the description
check is a whole-word regex search. -/
def scoreRole (p : Profile) (title description : Str) : ℚ × List Str :=
  let titleMatches := p.roles.filter
    (fun role => substrB (strLower role) (strLower title))
  let descriptionMatches := p.roles.filter
    (fun role => wholeWordB (strLower role) (strLower description))
  let allMatches := dedupKeepFirst (titleMatches ++ descriptionMatches)
  if allMatches.isEmpty then (0, [])
  else
    let base : ℚ :=
      if !descriptionMatches.isEmpty then
        (if descriptionMatches.length ≥ 2 then 90 else 80)
      else if !titleMatches.isEmpty then 60
      else 0
    (base, allMatches)

/-- The `eligibility_matches` dictionary of `_score_eligibility`: either the
`no_requirements_found` status, or the experience flag, skill list and
concern tags.  A `requires_N+_years` concern is recorded as its numeric
value `N`. -/
inductive EligMatches where
  | noRequirementsFound
  | found (experienceMatch : Bool) (skillsInRequirements : List Str) (concerns : List Nat)
  deriving DecidableEq

/-- Processing of one range match `(min_years, max_years)` of
`_score_eligibility` on the state (experience flag, concern list). -/
def processRange (st : Bool × List Nat) (m : Nat × Nat) : Bool × List Nat :=
  if m.1 ≤ 4 ∧ 3 ≤ m.2 then (true, st.2)
  else if 6 ≤ m.1 then (st.1, st.2 ++ [m.1])
  else st

/-- Processing of one single-number match of `_score_eligibility`. -/
def processSingle (st : Bool × List Nat) (y : Nat) : Bool × List Nat :=
  if 2 ≤ y ∧ y ≤ 5 then (true, st.2)
  else if 6 ≤ y then (st.1, st.2 ++ [y])
  else st

/-- The experience state after both `re.findall` loops of
`_score_eligibility` (ranges first, then single numbers). -/
def eligExperienceState (e : Str) : Bool × List Nat :=
  (findSingles (strLower e)).foldl processSingle
    ((findRanges (strLower e)).foldl processRange (false, []))

/-- The profile skills found whole-word in the eligibility text. -/
def eligSkills (p : Profile) (e : Str) : List Str :=
  p.all_skills.filter (fun s => wholeWordB s e)

/-- `JobScorer._score_eligibility`. -/
def scoreEligibility (p : Profile) (eligibilityText : Str) : ℚ × EligMatches :=
  if eligibilityText.isEmpty then (50, .noRequirementsFound)
  else
    let st := eligExperienceState eligibilityText
    let skills := eligSkills p eligibilityText
    let score : ℤ := 50
      + (if st.1 then 30 else 0)
      + (if skills.length ≥ 3 then 20 else if skills.length ≥ 1 then 10 else 0)
      - 40 * (st.2.length : ℤ)
    (((max 0 (min 100 score) : ℤ) : ℚ), .found st.1 skills st.2)

/-- The `ambiguous_negatives` set of `_score_visa`. -/
def ambiguousNegatives : List Str :=
  [str "must be authorized", str "authorized to work", str "already authorized",
   str "currently authorized", str "require current work authorization",
   str "must already have work authorization"]

/-- `JobScorer._score_visa`: returns (score, status, keywords found). -/
def scoreVisa (p : Profile) (text : Str) : ℚ × String × List Str :=
  let positiveFound := p.visa_positive.filter (fun k => wholeWordB k text)
  let negativeFound := p.visa_negative.filter
    (fun k => wholeWordB k text && !(ambiguousNegatives.contains (strLower k)))
  let ambiguousFound := p.visa_negative.filter
    (fun k => wholeWordB k text && ambiguousNegatives.contains (strLower k))
  if !negativeFound.isEmpty then (0, "excluded", negativeFound)
  else if !positiveFound.isEmpty then
    if positiveFound.any (fun k => substrB (str "e-3") k || substrB (str "e3") k) then
      (100, "explicit", positiveFound)
    else
      (80, "explicit", positiveFound)
  else if !ambiguousFound.isEmpty then (50, "none", ambiguousFound)
  else (50, "none", [])

/-- `JobScorer._assess_location`: returns (ok, penalty multiplier, flag). -/
def assessLocation (location : Str) : Bool × ℚ × String :=
  if location.isEmpty then (true, 1, "unknown")
  else
    let l := strLower location
    if [str "new york", str "nyc", str "manhattan", str "brooklyn",
        str "queens"].any (fun kw => substrB kw l) then
      (true, 1, "preferred")
    else if [str "remote", str "work from home", str "wfh",
             str "anywhere"].any (fun kw => substrB kw l) then
      (true, 1, "remote")
    else if [str "jersey city", str "hoboken", str "newark", str "stamford",
             str "philadelphia", str "philly",
             str "boston"].any (fun kw => substrB kw l) then
      (true, 9/10, "nearby")
    else (false, 3/4, "outside")

/-- The `leadership_keywords` of `_assess_seniority`. -/
def leadershipKeywords : List Str :=
  [str "staff", str "principal", str "lead", str "director", str "head",
   str "chief", str "cto", str "vp", str "manager", str "engineering manager"]

/-- `JobScorer._assess_seniority`: returns (ok, flag, penalty multiplier). -/
def assessSeniority (title description : Str) : Bool × String × ℚ :=
  let combined := strLower (title ++ ' ' :: description)
  if leadershipKeywords.any (fun k => wholeWordB k combined) then
    (false, "leadership", 1/2)
  else
    let maxYears := (findSingles combined).foldl max 0
    if maxYears ≥ 8 then (false, "years_8_plus", 1/2)
    else if maxYears ≥ 6 then (false, "years_6_plus", 6/10)
    else if maxYears = 5 then (true, "years_5_plus", 85/100)
    else if wholeWordB (str "senior") combined then (false, "senior_title", 6/10)
    else (true, "ok", 1)

/-! ## Reasoning generation (`JobScorer._generate_reasoning`) -/

def mlKeywords : List Str :=
  [str "machine learning", str "ml", str "ai", str "data science", str "nlp",
   str "deep learning", str "pytorch", str "tensorflow"]

def backendKeywords : List Str :=
  [str "backend", str "api", str "server", str "database", str "microservices",
   str "rest", str "graphql"]

def fullstackKeywords : List Str :=
  [str "fullstack", str "full stack", str "full-stack", str "frontend",
   str "react", str "vue", str "angular"]

def reasoningPriorityKeywords : List Str :=
  [str "medical", str "medtech", str "healthcare", str "healthtech",
   str "agriculture", str "agtech", str "ag tech", str "farm",
   str "fashion tech", str "fashiontech", str "apparel"]

/-- `JobScorer._generate_reasoning`: deterministic template selection from
the matched terms, the scoring tier of the (unrounded, post-penalty) total,
the visa status and the seniority flag. -/
def generateReasoning (techMatches industryMatches roleMatches : List Str)
    (visaStatus : String) (seniorityOk : Bool) (totalScore : ℚ) : String :=
  let allTerms := strLower
    (List.intercalate [' '] (techMatches ++ roleMatches ++ industryMatches))
  let isMl := mlKeywords.any (fun k => substrB k allTerms)
  let isBackend := backendKeywords.any (fun k => substrB k allTerms)
  let isFullstack := fullstackKeywords.any (fun k => substrB k allTerms)
  let hasPriority := reasoningPriorityKeywords.any (fun k => substrB k allTerms)
  if totalScore ≥ 75 then
    if isMl && hasPriority then
      "My ML pipeline work at FibreTrace—transforming raw sensor data into enterprise features—translates directly to your mission-critical data infrastructure."
    else if isMl then
      "Having built production ML systems at FibreTrace that process millions of data points, I\x27m eager to apply that foundation to your data challenges."
    else if isBackend && hasPriority then
      "My experience scaling backend systems at Friday Technologies, combined with ML deployment at FibreTrace, positions me well for your tech-driven mission."
    else if isBackend then
      "From building scalable APIs at Friday Technologies to deploying ML models at FibreTrace, I bring a strong foundation in production backend engineering."
    else if isFullstack then
      "My full-stack work—backend systems at Friday Technologies and data pipelines at FibreTrace—gives me the versatility this role demands."
    else
      "My experience constructing production systems that translate raw inputs into user-focused features positions me well for this challenge."
  else if totalScore ≥ 50 then
    if isMl then
      "While my ML work at FibreTrace focused on sensor data, the skills in building robust pipelines and model deployment transfer well here."
    else if isBackend then
      "My backend engineering at Friday Technologies—APIs, databases, scalability—provides a solid foundation for this role\x27s technical demands."
    else if isFullstack then
      "Though my focus has been backend-heavy, my full-stack experience at Friday Technologies and data work at FibreTrace make me adaptable."
    else
      let techStr := match techMatches with
        | [] => "your stack"
        | t :: _ => String.mk t
      "My foundation in backend engineering and data pipelines gives me a strong starting point for working with " ++ techStr ++ "."
  else
    if visaStatus = "excluded" then
      "This looks interesting, though the visa sponsorship situation might need clarification before proceeding."
    else if !seniorityOk then
      "While this role seems geared toward more senior candidates, my production experience may still translate well—worth exploring."
    else
      "Though the technical stack differs from my core experience, my adaptability and foundation in production systems could make this work."

/-! ## The scoring result and `JobScorer.score_job` -/

structure Breakdown where
  ai_semantic : ℚ
  technical : ℚ
  industry : ℚ
  role : ℚ
  eligibility : ℚ
  visa : ℚ
  deriving DecidableEq

structure MatchLists where
  tech : List Str
  industry : List Str
  role : List Str
  eligibility : EligMatches
  visa_keywords : List Str
  deriving DecidableEq

structure ScoringResult where
  fit_score : ℚ
  breakdown : Breakdown
  matchLists : MatchLists
  ai_details : AiDetails
  visa_status : String
  location_ok : Bool
  location_flag : String
  seniority_ok : Bool
  seniority_flag : String
  reasoning : String
  deriving DecidableEq

/-- `JobScorer.score_job`.  `ai` is the injected semantic provider
(`self.ai_scorer`, `None` when unavailable).  `ai_active` is
`bool(self.ai_scorer and description and len(description) > 50)`; when the
provider is inactive its weight is removed and the remaining weights are
rescaled by `100 / 50`, and `ai_score` keeps its `0.0` default. -/
def scoreJob (p : Profile) (ai : Option AIJobScorer) (job : Job) : ScoringResult :=
  let title := strLower job.title
  let description := strLower job.description
  let location := strLower job.location
  let combinedText := title ++ ' ' :: description
  let eligibilityText := extractEligibilitySections description
  let aiActive := ai.isSome && (!description.isEmpty && description.length > 50)
  let aiPair : ℚ × AiDetails :=
    match ai with
    | Option.none => (0, .disabled)
    | some A =>
      if !description.isEmpty && description.length > 50 then scoreJobAi A job
      else (0, .notAvailable)
  let weights : ℚ × ℚ × ℚ × ℚ × ℚ × ℚ :=
    if aiActive then (50, 20, 12, 10, 5, 3)
    else
      -- `weights.pop('ai_semantic')`; remaining total 20+12+10+5+3 = 50
      -- (nonzero, so the `or 1` guard is inert); each remaining weight
      -- becomes `w * 100 / total`.
      let total : ℚ := 20 + 12 + 10 + 5 + 3
      (0, 20 * 100 / total, 12 * 100 / total, 10 * 100 / total,
       5 * 100 / total, 3 * 100 / total)
  let tech := scoreTechnical p combinedText eligibilityText
  let industry := scoreIndustry p combinedText
  let role := scoreRole p title description
  let eligibility := scoreEligibility p eligibilityText
  let visa := scoreVisa p combinedText
  let totalScore :=
    aiPair.1 * weights.1 / 100 +
    tech.1 * weights.2.1 / 100 +
    industry.1 * weights.2.2.1 / 100 +
    role.1 * weights.2.2.2.1 / 100 +
    eligibility.1 * weights.2.2.2.2.1 / 100 +
    visa.1 * weights.2.2.2.2.2 / 100
  let loc := assessLocation location
  let totalScore := totalScore * loc.2.1
  let sen := assessSeniority title description
  let totalScore := totalScore * sen.2.2
  let reasoning := generateReasoning tech.2 industry.2 role.2 visa.2.1 sen.1 totalScore
  { fit_score := round1 totalScore
    breakdown :=
      { ai_semantic := round1 aiPair.1
        technical := round1 tech.1
        industry := round1 industry.1
        role := round1 role.1
        eligibility := round1 eligibility.1
        visa := round1 visa.1 }
    matchLists :=
      { tech := tech.2.take 10
        industry := industry.2
        role := role.2
        eligibility := eligibility.2
        visa_keywords := visa.2.2 }
    ai_details := aiPair.2
    visa_status := visa.2.1
    location_ok := loc.1
    location_flag := loc.2.2
    seniority_ok := sen.1
    seniority_flag := sen.2.1
    reasoning := reasoning }

/-- Aggregation of the component scores under explicit weights, followed by
the location and seniority multipliers, exactly as `score_job` combines
them; used to state which weights a given scoring path effectively uses. -/
def componentsTotal (p : Profile) (job : Job)
    (aiScore wAi wTech wInd wRole wElig wVisa : ℚ) : ℚ :=
  let title := strLower job.title
  let description := strLower job.description
  let combinedText := title ++ ' ' :: description
  let eligibilityText := extractEligibilitySections description
  (aiScore * wAi / 100 +
   (scoreTechnical p combinedText eligibilityText).1 * wTech / 100 +
   (scoreIndustry p combinedText).1 * wInd / 100 +
   (scoreRole p title description).1 * wRole / 100 +
   (scoreEligibility p eligibilityText).1 * wElig / 100 +
   (scoreVisa p combinedText).1 * wVisa / 100)
  * (assessLocation (strLower job.location)).2.1
  * (assessSeniority title description).2.2

/-! ## The concrete profile (`src/profile.py`, as flattened by
`JobScorer.__init__`: lowercased, skills deduplicated keeping the first
occurrence of each duplicate) -/

def harveySkills : List Str :=
  [str "rag", str "retrieval augmented generation", str "llm",
   str "large language models", str "gpt", str "nlp",
   str "natural language processing", str "semantic search", str "coreml",
   str "machine learning", str "ml", str "on-device ml",
   str "predictive analytics", str "deep learning", str "neural networks",
   str "pytorch", str "tensorflow", str "transformers", str "computer vision",
   str "ocr", str "data pipelines", str "mlops", str "model evaluation",
   str "agentic systems", str "agent-style workflows", str "embedding search",
   str "vector databases", str "faiss", str "pinecone", str "prompt engineering",
   str "anomaly detection", str "predictive modeling", str "inference flows",
   str "python", str "c", str "c++", str "c#", str "java", str "rust",
   str "sql", str "postgresql", str "mysql", str "dynamodb", str "aws",
   str "lambda", str "s3", str "ec2", str "api gateway", str "serverless",
   str "high-throughput systems", str "rest api", str "graphql",
   str "api design", str "microservices", str "etl/elt pipelines",
   str "real-time data processing", str "distributed systems",
   str "data modeling", str "snowflake", str "swift", str "swiftui",
   str "ios", str "visionos", str "macos", str "react", str "react native",
   str "typescript", str "javascript", str "next.js", str "node.js",
   str "shopify", str "liquid", str "html", str "css", str "frontend",
   str "backend", str "cloud engineering", str "cloud-native", str "docker",
   str "ci/cd", str "agile", str "git", str "github", str "etl/elt",
   str "data ingestion", str "terabyte-scale datasets", str "streaming",
   str "binary ingest", str "mmap-based i/o", str "real-time analytics",
   str "data transformation", str "jupyter", str "vscode", str "pycharm",
   str "xcode", str "qr/nfc", str "deep links", str "app clips",
   str "haptics", str "offline-first caching", str "devops"]

def harveyIndustries : List Str :=
  [str "medical technology", str "medtech", str "healthcare", str "healthtech",
   str "health tech", str "digital health", str "clinical",
   str "medical device", str "diagnostics", str "agriculture tech",
   str "agtech", str "ag tech", str "agricultural technology",
   str "precision agriculture", str "farm tech", str "livestock tech",
   str "smart farming", str "fashion tech", str "fashion technology",
   str "apparel tech", str "fashiontech", str "textile tech",
   str "retail tech", str "e-commerce fashion", str "fashion ai",
   str "fashion industry", str "fashion", str "apparel", str "garment",
   str "clothing", str "fashion design", str "sustainable fashion",
   str "fashion manufacturing", str "fashion brands",
   str "fashion marketplace", str "wearables", str "textile",
   str "sustainability", str "climate tech", str "esg", str "carbon tech",
   str "supply chain", str "supply chain transparency",
   str "ethical sourcing", str "circular economy", str "environmental tech",
   str "artificial intelligence", str "ai/ml", str "machine learning",
   str "iot", str "internet of things", str "embedded systems",
   str "sensors", str "consumer apps", str "marketplace", str "platform",
   str "saas", str "ios engineering", str "mobile first", str "startups",
   str "0-to-1", str "early stage", str "seed stage",
   str "high-performance systems", str "real-time systems",
   str "data pipelines"]

def harveyRoles : List Str :=
  [str "machine learning engineer", str "ml engineer", str "ai engineer",
   str "artificial intelligence engineer", str "software engineer",
   str "full stack engineer", str "full-stack engineer",
   str "fullstack engineer", str "ios engineer", str "mobile engineer",
   str "backend engineer", str "data engineer", str "analytics engineer",
   str "data and analytics engineer", str "ml platform engineer",
   str "mlops engineer", str "product engineer", str "founding engineer"]

def harveyVisaPositive : List Str :=
  [str "e-3", str "e3", str "e-3 visa", str "e3 visa",
   str "visa sponsorship", str "sponsor visa", str "sponsorship available",
   str "will sponsor", str "can sponsor", str "h1b", str "h-1b", str "lca",
   str "labor condition application", str "work authorization",
   str "authorized to work", str "open to sponsorship"]

def harveyVisaNegative : List Str :=
  [str "no sponsorship", str "cannot sponsor", str "will not sponsor",
   str "must be authorized", str "us citizen only", str "citizens only",
   str "no visa sponsorship now or in future",
   str "require current work authorization", str "local candidates only",
   str "only local candidates", str "no relocation",
   str "no relocation assistance", str "must be local", str "local only",
   str "tri-state only", str "no 3rd party", str "no third party",
   str "no third-party", str "direct hire only", str "w2 only",
   str "already authorized to work", str "currently authorized",
   str "authorized to work in the us without sponsorship",
   str "must already have work authorization"]

def harveyProfile : Profile :=
  { all_skills := harveySkills
    industries := harveyIndustries
    roles := harveyRoles
    visa_positive := harveyVisaPositive
    visa_negative := harveyVisaNegative }

/-! ## Concrete fixtures used by witnesses and counterexamples -/

/-- A provider whose model is loaded but whose scoring pipeline raises. -/
def errorScorer : AIJobScorer := ⟨some (fun _ => Except.error (str "model failure"))⟩

/-- A job with a 51-character description that matches no keyword. -/
def jobZ : Job :=
  { title := [], company := [], description := List.replicate 51 'z', location := [] }

/-- A job posting with every field missing/empty. -/
def jobEmpty : Job := { title := [], company := [], description := [], location := [] }

/-- A provider whose similarity depends on the title length. -/
def titleLenScorer : AIJobScorer :=
  ⟨some (fun j => Except.ok ((j.title.length : ℚ) / 100))⟩

/-- A provider that always reports similarity 0. -/
def zeroSimScorer : AIJobScorer := ⟨some (fun _ => Except.ok 0)⟩

/-- Two injected providers behave identically on a given job: both absent,
or both present with the model unloaded, or both present with scoring
pipelines returning the same outcome on that job (the determinism
hypothesis of the spec: the provider is a function of its input). -/
def aiAgreesOn (ai₁ ai₂ : Option AIJobScorer) (job : Job) : Prop :=
  match ai₁, ai₂ with
  | Option.none, Option.none => True
  | some A₁, some A₂ =>
    (match A₁.modelSim, A₂.modelSim with
     | Option.none, Option.none => True
     | some f, some g => f job = g job
     | _, _ => False)
  | _, _ => False

/-! ## Basic lemmas -/

theorem ratFloor_eq_floor (q : ℚ) : q.floor = ⌊q⌋ := by
  rw [Rat.floor_def', Rat.floor_def]

theorem pyRoundInt_nonneg {q : ℚ} (h : 0 ≤ q) : 0 ≤ pyRoundInt q := by
  have hf : (0 : ℤ) ≤ ⌊q⌋ := Int.floor_nonneg.mpr h
  simp only [pyRoundInt, ratFloor_eq_floor]
  split_ifs <;> omega

theorem pyRoundInt_le {q : ℚ} {n : ℤ} (h : q ≤ (n : ℚ)) : pyRoundInt q ≤ n := by
  have hf : ⌊q⌋ ≤ n := by
    have := Int.floor_le_floor h
    rwa [Int.floor_intCast] at this
  have hne : ⌊q⌋ = n → q - (⌊q⌋ : ℚ) ≤ 0 := by
    intro he
    have h2 : (⌊q⌋ : ℚ) ≤ q := Int.floor_le q
    rw [he] at h2 ⊢
    linarith
  simp only [pyRoundInt, ratFloor_eq_floor]
  split_ifs with h1 h2 h3
  · exact hf
  · rcases lt_or_eq_of_le hf with hlt | he
    · omega
    · exact absurd (by linarith [hne he] : q - (⌊q⌋ : ℚ) < 1/2) h1
  · exact hf
  · rcases lt_or_eq_of_le hf with hlt | he
    · omega
    · exact absurd (by linarith [hne he] : q - (⌊q⌋ : ℚ) < 1/2) h1

theorem round1_nonneg {q : ℚ} (h : 0 ≤ q) : 0 ≤ round1 q := by
  unfold round1
  have h1 : (0 : ℤ) ≤ pyRoundInt (10 * q) := pyRoundInt_nonneg (by linarith)
  have h2 : (0 : ℚ) ≤ (pyRoundInt (10 * q) : ℚ) := by exact_mod_cast h1
  positivity

theorem round1_le_100 {q : ℚ} (h : q ≤ 100) : round1 q ≤ 100 := by
  unfold round1
  have h1 : pyRoundInt (10 * q) ≤ (1000 : ℤ) := by
    apply pyRoundInt_le
    push_cast
    linarith
  rw [div_le_iff₀ (by norm_num : (0:ℚ) < 10)]
  calc (pyRoundInt (10 * q) : ℚ) ≤ ((1000 : ℤ) : ℚ) := by exact_mod_cast h1
    _ = 100 * 10 := by norm_num

theorem round1_bounds {q : ℚ} (h0 : 0 ≤ q) (h100 : q ≤ 100) :
    0 ≤ round1 q ∧ round1 q ≤ 100 :=
  ⟨round1_nonneg h0, round1_le_100 h100⟩

/-! ## Range bounds of the component scores -/

theorem minNat100_bounds (s : Nat) :
    0 ≤ ((min s 100 : ℕ) : ℚ) ∧ ((min s 100 : ℕ) : ℚ) ≤ 100 := by
  constructor
  · exact Nat.cast_nonneg _
  · exact_mod_cast min_le_right s 100

theorem clampInt_bounds (z : ℤ) :
    0 ≤ ((max 0 (min 100 z) : ℤ) : ℚ) ∧ ((max 0 (min 100 z) : ℤ) : ℚ) ≤ 100 := by
  constructor
  · exact_mod_cast le_max_left 0 (min 100 z)
  · exact_mod_cast max_le (by norm_num) (min_le_left 100 z)

theorem scoreTechnical_bounds (p : Profile) (t e : Str) :
    0 ≤ (scoreTechnical p t e).1 ∧ (scoreTechnical p t e).1 ≤ 100 := by
  simp only [scoreTechnical]
  split_ifs with h h2
  · norm_num
  · exact minNat100_bounds _
  · exact minNat100_bounds _

theorem scoreIndustry_bounds (p : Profile) (t : Str) :
    0 ≤ (scoreIndustry p t).1 ∧ (scoreIndustry p t).1 ≤ 100 := by
  simp only [scoreIndustry]
  split_ifs <;> norm_num

theorem scoreRole_bounds (p : Profile) (title description : Str) :
    0 ≤ (scoreRole p title description).1 ∧ (scoreRole p title description).1 ≤ 100 := by
  simp only [scoreRole]
  split_ifs <;> norm_num

theorem scoreEligibility_bounds (p : Profile) (e : Str) :
    0 ≤ (scoreEligibility p e).1 ∧ (scoreEligibility p e).1 ≤ 100 := by
  simp only [scoreEligibility]
  split_ifs with h
  · norm_num
  all_goals exact clampInt_bounds _

theorem scoreVisa_bounds (p : Profile) (t : Str) :
    0 ≤ (scoreVisa p t).1 ∧ (scoreVisa p t).1 ≤ 100 := by
  simp only [scoreVisa]
  split_ifs <;> norm_num

theorem assessLocation_penalty_bounds (l : Str) :
    0 ≤ (assessLocation l).2.1 ∧ (assessLocation l).2.1 ≤ 1 := by
  simp only [assessLocation]
  split_ifs <;> norm_num

theorem assessSeniority_penalty_bounds (title description : Str) :
    0 ≤ (assessSeniority title description).2.2 ∧
    (assessSeniority title description).2.2 ≤ 1 := by
  simp only [assessSeniority]
  split_ifs <;> norm_num

theorem round1_bounds01 {q : ℚ} (h : 0 ≤ q ∧ q ≤ 100) :
    0 ≤ round1 q ∧ round1 q ≤ 100 :=
  ⟨round1_nonneg h.1, round1_le_100 h.2⟩

/-- The weighted sum of six component scores in `[0,100]`, under either the
full base weights or the renormalized weights (both summing to 100),
followed by two multipliers in `[0,1]`, stays in `[0,100]`. -/
theorem weighted_total_bounds {sa st si sr se sv wa wt wi wr wel wv lp sp : ℚ}
    (hsa : 0 ≤ sa ∧ sa ≤ 100) (hst : 0 ≤ st ∧ st ≤ 100)
    (hsi : 0 ≤ si ∧ si ≤ 100) (hsr : 0 ≤ sr ∧ sr ≤ 100)
    (hse : 0 ≤ se ∧ se ≤ 100) (hsv : 0 ≤ sv ∧ sv ≤ 100)
    (hw : (wa = 50 ∧ wt = 20 ∧ wi = 12 ∧ wr = 10 ∧ wel = 5 ∧ wv = 3) ∨
          (wa = 0 ∧ wt = 40 ∧ wi = 24 ∧ wr = 20 ∧ wel = 10 ∧ wv = 6))
    (hlp : 0 ≤ lp ∧ lp ≤ 1) (hsp : 0 ≤ sp ∧ sp ≤ 1) :
    0 ≤ (sa * wa / 100 + st * wt / 100 + si * wi / 100 + sr * wr / 100 +
         se * wel / 100 + sv * wv / 100) * lp * sp ∧
    (sa * wa / 100 + st * wt / 100 + si * wi / 100 + sr * wr / 100 +
     se * wel / 100 + sv * wv / 100) * lp * sp ≤ 100 := by
  have hT : 0 ≤ (sa * wa / 100 + st * wt / 100 + si * wi / 100 + sr * wr / 100 +
      se * wel / 100 + sv * wv / 100) ∧
      (sa * wa / 100 + st * wt / 100 + si * wi / 100 + sr * wr / 100 +
       se * wel / 100 + sv * wv / 100) ≤ 100 := by
    rcases hw with ⟨h1, h2, h3, h4, h5, h6⟩ | ⟨h1, h2, h3, h4, h5, h6⟩ <;>
      (subst h1; subst h2; subst h3; subst h4; subst h5; subst h6) <;>
      constructor <;> [linarith; linarith; linarith; linarith]
  constructor
  · exact mul_nonneg (mul_nonneg hT.1 hlp.1) hsp.1
  · calc (sa * wa / 100 + st * wt / 100 + si * wi / 100 + sr * wr / 100 +
        se * wel / 100 + sv * wv / 100) * lp * sp
        ≤ (sa * wa / 100 + st * wt / 100 + si * wi / 100 + sr * wr / 100 +
           se * wel / 100 + sv * wv / 100) * lp :=
          mul_le_of_le_one_right (mul_nonneg hT.1 hlp.1) hsp.2
      _ ≤ (sa * wa / 100 + st * wt / 100 + si * wi / 100 + sr * wr / 100 +
           se * wel / 100 + sv * wv / 100) :=
          mul_le_of_le_one_right hT.1 hlp.2
      _ ≤ 100 := hT.2

/-- C1: for every job posting record (any title, company, description and
location, possibly empty), the result of `score_job` has `fit_score` in
`[0,100]` and every breakdown sub-score (ai_semantic, technical, industry,
role, eligibility, visa) in `[0,100]`, under the hypothesis that the
semantic provider, when active (present, with a nonempty description
longer than 50 characters), returns a score in `[0,100]`. -/
theorem c1_all_scores_in_range (p : Profile) (ai : Option AIJobScorer) (job : Job)
    (hai : ∀ A, ai = some A → job.description ≠ [] → 50 < job.description.length →
      0 ≤ (scoreJobAi A job).1 ∧ (scoreJobAi A job).1 ≤ 100) :
    (0 ≤ (scoreJob p ai job).fit_score ∧ (scoreJob p ai job).fit_score ≤ 100) ∧
    (0 ≤ (scoreJob p ai job).breakdown.ai_semantic ∧
      (scoreJob p ai job).breakdown.ai_semantic ≤ 100) ∧
    (0 ≤ (scoreJob p ai job).breakdown.technical ∧
      (scoreJob p ai job).breakdown.technical ≤ 100) ∧
    (0 ≤ (scoreJob p ai job).breakdown.industry ∧
      (scoreJob p ai job).breakdown.industry ≤ 100) ∧
    (0 ≤ (scoreJob p ai job).breakdown.role ∧
      (scoreJob p ai job).breakdown.role ≤ 100) ∧
    (0 ≤ (scoreJob p ai job).breakdown.eligibility ∧
      (scoreJob p ai job).breakdown.eligibility ≤ 100) ∧
    (0 ≤ (scoreJob p ai job).breakdown.visa ∧
      (scoreJob p ai job).breakdown.visa ≤ 100) := by
  have h0100 : (0:ℚ) ≤ 0 ∧ (0:ℚ) ≤ 100 := by norm_num
  rcases ai with _ | A
  · simp only [scoreJob, Option.isSome_none, Bool.false_and, Bool.false_eq_true,
      if_false, reduceIte]
    exact ⟨round1_bounds01 (weighted_total_bounds h0100 (scoreTechnical_bounds _ _ _)
        (scoreIndustry_bounds _ _) (scoreRole_bounds _ _ _) (scoreEligibility_bounds _ _)
        (scoreVisa_bounds _ _) (Or.inr (by norm_num))
        (assessLocation_penalty_bounds _) (assessSeniority_penalty_bounds _ _)),
      round1_bounds01 h0100,
      round1_bounds01 (scoreTechnical_bounds _ _ _),
      round1_bounds01 (scoreIndustry_bounds _ _),
      round1_bounds01 (scoreRole_bounds _ _ _),
      round1_bounds01 (scoreEligibility_bounds _ _),
      round1_bounds01 (scoreVisa_bounds _ _)⟩
  · rcases hcond : (!(strLower job.description).isEmpty &&
        decide ((strLower job.description).length > 50)) with _ | _
    · simp only [scoreJob, Option.isSome_some, Bool.true_and, hcond,
        Bool.false_eq_true, if_false, reduceIte]
      exact ⟨round1_bounds01 (weighted_total_bounds h0100 (scoreTechnical_bounds _ _ _)
          (scoreIndustry_bounds _ _) (scoreRole_bounds _ _ _) (scoreEligibility_bounds _ _)
          (scoreVisa_bounds _ _) (Or.inr (by norm_num))
          (assessLocation_penalty_bounds _) (assessSeniority_penalty_bounds _ _)),
        round1_bounds01 h0100,
        round1_bounds01 (scoreTechnical_bounds _ _ _),
        round1_bounds01 (scoreIndustry_bounds _ _),
        round1_bounds01 (scoreRole_bounds _ _ _),
        round1_bounds01 (scoreEligibility_bounds _ _),
        round1_bounds01 (scoreVisa_bounds _ _)⟩
    · have hlen : 50 < job.description.length := by
        have h1 := hcond
        simp only [Bool.and_eq_true, decide_eq_true_eq, strLower, List.length_map] at h1
        omega
      have hA := hai A rfl
        (by
          intro h0
          rw [h0] at hlen
          simp at hlen) hlen
      simp only [scoreJob, Option.isSome_some, Bool.true_and, hcond, if_true]
      exact ⟨round1_bounds01 (weighted_total_bounds hA (scoreTechnical_bounds _ _ _)
          (scoreIndustry_bounds _ _) (scoreRole_bounds _ _ _) (scoreEligibility_bounds _ _)
          (scoreVisa_bounds _ _) (Or.inl (by norm_num))
          (assessLocation_penalty_bounds _) (assessSeniority_penalty_bounds _ _)),
        round1_bounds01 hA,
        round1_bounds01 (scoreTechnical_bounds _ _ _),
        round1_bounds01 (scoreIndustry_bounds _ _),
        round1_bounds01 (scoreRole_bounds _ _ _),
        round1_bounds01 (scoreEligibility_bounds _ _),
        round1_bounds01 (scoreVisa_bounds _ _)⟩

theorem c1_witness :
    (0 ≤ (scoreJob harveyProfile Option.none jobEmpty).fit_score ∧
      (scoreJob harveyProfile Option.none jobEmpty).fit_score ≤ 100) ∧
    (0 ≤ (scoreJob harveyProfile Option.none jobEmpty).breakdown.ai_semantic ∧
      (scoreJob harveyProfile Option.none jobEmpty).breakdown.ai_semantic ≤ 100) ∧
    (0 ≤ (scoreJob harveyProfile Option.none jobEmpty).breakdown.technical ∧
      (scoreJob harveyProfile Option.none jobEmpty).breakdown.technical ≤ 100) ∧
    (0 ≤ (scoreJob harveyProfile Option.none jobEmpty).breakdown.industry ∧
      (scoreJob harveyProfile Option.none jobEmpty).breakdown.industry ≤ 100) ∧
    (0 ≤ (scoreJob harveyProfile Option.none jobEmpty).breakdown.role ∧
      (scoreJob harveyProfile Option.none jobEmpty).breakdown.role ≤ 100) ∧
    (0 ≤ (scoreJob harveyProfile Option.none jobEmpty).breakdown.eligibility ∧
      (scoreJob harveyProfile Option.none jobEmpty).breakdown.eligibility ≤ 100) ∧
    (0 ≤ (scoreJob harveyProfile Option.none jobEmpty).breakdown.visa ∧
      (scoreJob harveyProfile Option.none jobEmpty).breakdown.visa ≤ 100) :=
  c1_all_scores_in_range harveyProfile Option.none jobEmpty (fun _ h => nomatch h)

/-- C2: any hard-negative visa keyword (a profile negative keyword outside
the ambiguous set) matching as a whole word forces status `excluded` with
visa sub-score 0, regardless of co-occurring positive keywords. -/
theorem c2_visa_hard_negative_excludes (p : Profile) (text kw : Str)
    (hmem : kw ∈ p.visa_negative)
    (hamb : ambiguousNegatives.contains (strLower kw) = false)
    (hmatch : wholeWordB kw text = true) :
    (scoreVisa p text).1 = 0 ∧ (scoreVisa p text).2.1 = "excluded" := by
  have hne : p.visa_negative.filter
      (fun k => wholeWordB k text && !(ambiguousNegatives.contains (strLower k))) ≠ [] := by
    apply List.ne_nil_of_mem (a := kw)
    rw [List.mem_filter]
    exact ⟨hmem, by rw [hmatch, hamb]; rfl⟩
  simp only [scoreVisa]
  rw [if_pos]
  · exact ⟨rfl, rfl⟩
  · simpa using hne

theorem c2_witness :
    (scoreVisa harveyProfile
      (str "we offer visa sponsorship but no sponsorship for this role")).1 = 0 ∧
    (scoreVisa harveyProfile
      (str "we offer visa sponsorship but no sponsorship for this role")).2.1 = "excluded" :=
  c2_visa_hard_negative_excludes harveyProfile _ (str "no sponsorship")
    (by decide) (by decide) (by decide)

/-- C3 counterexample: on a 51-character keyword-free description, the
erroring provider yields `fit_score` 29 (neutral ai score 50 kept at full
weight 50, contributing 25, plus eligibility and visa at their base
weights), while the provider-absent renormalized path yields 8 — so an
internal provider error is *not* treated like the provider-absent case and
the provider's neutral score *does* contribute to `fit_score`. -/
theorem c3_counterexample :
    (scoreJob harveyProfile (some errorScorer) jobZ).fit_score = 29 ∧
    (scoreJob harveyProfile Option.none jobZ).fit_score = 8 := by
  with_unfolding_all decide

/-- C3 amended: when the provider object is present and the description is
longer than 50 characters, an internal error of the scoring call is caught
inside `score_job_ai` and returns the neutral score 50 with the `error`
detail; the engine keeps the FULL base weights (ai_semantic weight 50), so
the neutral 50 contributes `50 * 50 / 100` to the weighted sum.  Weight
renormalization happens only when the provider object is absent or the
description is empty or not longer than 50 characters. -/
theorem c3_error_keeps_full_weight (p : Profile) (A : AIJobScorer)
    (f : Job → Except Str ℚ) (e : Str) (job : Job)
    (hf : A.modelSim = some f) (herr : f job = Except.error e)
    (hlen : 50 < job.description.length) :
    (scoreJob p (some A) job).breakdown.ai_semantic = 50 ∧
    (scoreJob p (some A) job).ai_details = AiDetails.aiError e ∧
    (scoreJob p (some A) job).fit_score =
      round1 (componentsTotal p job 50 50 20 12 10 5 3) := by
  have hlen' : (strLower job.description).length = job.description.length :=
    List.length_map _ _
  have hne : (strLower job.description).isEmpty = false := by
    rw [List.isEmpty_eq_false]
    exact List.ne_nil_of_length_pos (by omega)
  have hneRaw : job.description.isEmpty = false := by
    rw [List.isEmpty_eq_false]
    exact List.ne_nil_of_length_pos (by omega)
  have hai : scoreJobAi A job = (50, AiDetails.aiError e) := by
    simp only [scoreJobAi, hf, hneRaw, Bool.false_or, decide_eq_true_eq]
    rw [if_neg (by omega : ¬ job.description.length < 50), herr]
  have h50 : round1 50 = 50 := by with_unfolding_all decide
  simp only [scoreJob, Option.isSome_some, Bool.true_and, hne, Bool.not_false,
    hlen', decide_eq_true_eq, if_pos hlen, hai, componentsTotal, h50]
  exact ⟨trivial, trivial, trivial⟩

theorem c3_witness :
    (scoreJob harveyProfile (some errorScorer) jobZ).breakdown.ai_semantic = 50 ∧
    (scoreJob harveyProfile (some errorScorer) jobZ).ai_details =
      AiDetails.aiError (str "model failure") ∧
    (scoreJob harveyProfile (some errorScorer) jobZ).fit_score =
      round1 (componentsTotal harveyProfile jobZ 50 50 20 12 10 5 3) :=
  c3_error_keeps_full_weight harveyProfile errorScorer _ _ jobZ rfl rfl (by decide)

theorem dedupKeepFirst_eq_nil {l : List Str} : dedupKeepFirst l = [] ↔ l = [] := by
  cases l <;> simp [dedupKeepFirst]

/-- C4 counterexample: no profile role matches the title "xml engineer" as
a whole word (the roles "ml engineer" and "ml platform engineer" etc. occur
only inside the longer word "xml"), yet with an empty description the role
sub-score is 60 — the title test is substring containment, so a role name
occurring in the title only as part of a longer word DOES yield a title
match, refuting the claimed whole-word title matching and its score-0
consequence. -/
theorem c4_counterexample :
    (∀ role ∈ harveyProfile.roles,
      wholeWordB (strLower role) (strLower (str "xml engineer")) = false) ∧
    (scoreRole harveyProfile (str "xml engineer") []).1 = 60 := by
  with_unfolding_all decide

/-- C4 amended: the role matcher matches the profile's role list whole-word
in the description but by substring containment in the title; the score is
0 when nothing matches, 90 when at least 2 roles match the description
whole-word, 80 when exactly 1 does, and 60 when some role is a substring of
the title but none matches the description. -/
theorem c4_role_scoring (p : Profile) (title description : Str) :
    (scoreRole p title description).1 =
      (if p.roles.filter (fun role => wholeWordB (strLower role) (strLower description)) ≠ [] then
        (if (p.roles.filter
              (fun role => wholeWordB (strLower role) (strLower description))).length ≥ 2
         then 90 else 80)
       else if p.roles.filter (fun role => substrB (strLower role) (strLower title)) ≠ [] then
         (60 : ℚ)
       else 0) := by
  simp only [scoreRole]
  by_cases hD : p.roles.filter (fun role => wholeWordB (strLower role) (strLower description)) = []
  · by_cases hT : p.roles.filter (fun role => substrB (strLower role) (strLower title)) = []
    · simp [List.isEmpty_iff, dedupKeepFirst_eq_nil, hD, hT]
    · simp [List.isEmpty_iff, dedupKeepFirst_eq_nil, hD, hT]
  · simp [List.isEmpty_iff, dedupKeepFirst_eq_nil, hD]

/-- A whole-word occurrence inside `t₁` survives appending a non-word
character followed by anything: the prefix, the before-boundary and the
after-boundary are unchanged (an occurrence that ends exactly at the end of
`t₁` must end in a word character, and the appended non-word character
keeps that boundary). -/
theorem occursAtB_append_right {k t₁ : Str} {i : Nat} (t₂ : Str) {c : Char}
    (hc : isWordChar c = false) (h : occursAtB k t₁ i = true) :
    occursAtB k (t₁ ++ c :: t₂) i = true := by
  simp only [occursAtB, Bool.and_eq_true] at h
  obtain ⟨⟨⟨hk, hpre⟩, hbb⟩, hba⟩ := h
  have hkne : k ≠ [] := by
    intro hk0
    rw [hk0] at hk
    simp at hk
  have kpre : k <+: t₁.drop i := List.isPrefixOf_iff_prefix.mp hpre
  have hi_le : i ≤ t₁.length := by
    by_contra hgt
    rw [List.drop_eq_nil_of_le (by omega)] at kpre
    exact hkne (List.prefix_nil.mp kpre)
  have hik : i + k.length ≤ t₁.length := by
    have h1 := kpre.length_le
    rw [List.length_drop] at h1
    omega
  simp only [occursAtB, Bool.and_eq_true]
  refine ⟨⟨⟨hk, ?_⟩, ?_⟩, ?_⟩
  · rw [List.drop_append_of_le_length hi_le]
    exact List.isPrefixOf_iff_prefix.mpr (kpre.trans (List.prefix_append _ _))
  · rcases hh : k.head? with _ | c0
    · rw [hh] at hbb
      exact hbb
    · rw [hh] at hbb
      rcases Nat.eq_zero_or_pos i with hi0 | hipos
      · subst hi0
        simpa using hbb
      · rw [if_neg (by omega), List.getElem?_append, if_pos (by omega)]
        rw [if_neg (by omega)] at hbb
        exact hbb
  · rcases hl : k.getLast? with _ | lastc
    · rw [hl] at hba
      exact hba
    · rw [hl] at hba
      rcases Nat.lt_or_ge (i + k.length) t₁.length with hlt | hge
      · rw [List.getElem?_append, if_pos hlt]
        exact hba
      · have heq : i + k.length = t₁.length := le_antisymm hik hge
        rw [List.getElem?_eq_none (le_of_eq heq.symm)] at hba
        have hw : isWordChar lastc = true := by
          by_contra hw
          simp only [Bool.not_eq_true] at hw
          simp [boundaryAfter, hw] at hba
        rw [List.getElem?_append_right (le_of_eq heq.symm), heq, Nat.sub_self]
        simp [boundaryAfter, hw, hc]

theorem wholeWordB_append_right {k t₁ : Str} (t₂ : Str) {c : Char}
    (hc : isWordChar c = false) (h : wholeWordB k t₁ = true) :
    wholeWordB k (t₁ ++ c :: t₂) = true := by
  simp only [wholeWordB, List.any_eq_true] at h ⊢
  obtain ⟨i, hi, hocc⟩ := h
  refine ⟨i, ?_, occursAtB_append_right t₂ hc hocc⟩
  simp only [List.mem_range, List.length_append, List.length_cons] at hi ⊢
  omega

theorem strLower_append_cons (a b : Str) (c : Char) :
    strLower (a ++ c :: b) = strLower a ++ Char.toLower c :: strLower b := by
  simp [strLower]

/-- C5: a leadership-title keyword occurring as a whole word in the
(lowercased) title forces `_assess_seniority` to return not-ok with flag
"leadership" and multiplier 0.5, regardless of the description (and hence
of any years-of-experience mentions or the word "senior" anywhere). -/
theorem c5_leadership_short_circuit (title description : Str) (kw : Str)
    (hkw : kw ∈ leadershipKeywords)
    (hmatch : wholeWordB kw (strLower title) = true) :
    assessSeniority title description = (false, "leadership", 1/2) := by
  have hcombined : strLower (title ++ ' ' :: description) =
      strLower title ++ ' ' :: strLower description := by
    rw [strLower_append_cons]
    norm_num [show Char.toLower ' ' = ' ' from by decide]
  have hmatch' : wholeWordB kw (strLower (title ++ ' ' :: description)) = true := by
    rw [hcombined]
    exact wholeWordB_append_right _ (by decide) hmatch
  have hany : leadershipKeywords.any
      (fun k => wholeWordB k (strLower (title ++ ' ' :: description))) = true :=
    List.any_eq_true.mpr ⟨kw, hkw, hmatch'⟩
  simp only [assessSeniority, hany, if_true]

theorem c5_witness :
    assessSeniority (str "Staff Engineer")
      (str "10+ years required, senior candidates only") = (false, "leadership", 1/2) :=
  c5_leadership_short_circuit _ _ (str "staff") (by decide) (by decide)

theorem foldl_processRange_fst (rs : List (Nat × Nat)) (st : Bool × List Nat) :
    (rs.foldl processRange st).1 =
      (st.1 || rs.any (fun m => decide (m.1 ≤ 4) && decide (3 ≤ m.2))) := by
  induction rs generalizing st with
  | nil => simp
  | cons m rs ih =>
    simp only [List.foldl_cons, List.any_cons, ih, processRange]
    split_ifs with h1 h2
    · simp [h1.1, h1.2]
    · have hm : ¬ m.1 ≤ 4 := by omega
      simp [hm]
    · have hm : (decide (m.1 ≤ 4) && decide (3 ≤ m.2)) = false := by
        rcases Nat.lt_or_ge 4 m.1 with h | h
        · simp [Nat.not_le.mpr h]
        · have h3 : ¬ 3 ≤ m.2 := fun hb => h1 ⟨h, hb⟩
          simp [h3]
      simp [hm]

theorem foldl_processRange_snd (rs : List (Nat × Nat)) (st : Bool × List Nat) :
    (rs.foldl processRange st).2 =
      st.2 ++ rs.filterMap (fun m => if 6 ≤ m.1 then some m.1 else Option.none) := by
  induction rs generalizing st with
  | nil => simp
  | cons m rs ih =>
    simp only [List.foldl_cons, List.filterMap_cons, ih, processRange]
    split_ifs <;> simp
    all_goals omega

theorem foldl_processSingle_fst (ys : List Nat) (st : Bool × List Nat) :
    (ys.foldl processSingle st).1 =
      (st.1 || ys.any (fun y => decide (2 ≤ y) && decide (y ≤ 5))) := by
  induction ys generalizing st with
  | nil => simp
  | cons y ys ih =>
    simp only [List.foldl_cons, List.any_cons, ih, processSingle]
    split_ifs with h1 h2
    · simp [h1.1, h1.2]
    · have hm : ¬ y ≤ 5 := by omega
      simp [hm]
    · have hm : (decide (2 ≤ y) && decide (y ≤ 5)) = false := by
        rcases Nat.lt_or_ge y 2 with h | h
        · simp [Nat.not_le.mpr h]
        · have h3 : ¬ y ≤ 5 := fun hb => h1 ⟨h, hb⟩
          simp [h3]
      simp [hm]

theorem foldl_processSingle_snd (ys : List Nat) (st : Bool × List Nat) :
    (ys.foldl processSingle st).2 =
      st.2 ++ ys.filterMap (fun y => if 6 ≤ y then some y else Option.none) := by
  induction ys generalizing st with
  | nil => simp
  | cons y ys ih =>
    simp only [List.foldl_cons, List.filterMap_cons, ih, processSingle]
    split_ifs <;> simp
    all_goals omega

/-- C6: for nonempty eligibility text, the experience flag is set exactly
when some extracted mention overlaps the accepted window (ranges with
`min ≤ 4 ∧ 3 ≤ max`, single numbers in `[2,5]`), each extracted mention at
or above the exclusion threshold 6 appends exactly one concern (one per
occurrence, ranges by their minimum, then single numbers), and the score is
`50 + 30·[experience] + (20 if ≥3 skill hits else 10 if ≥1) − 40·#concerns`
clamped to `[0,100]`; empty text yields the neutral (50, no_requirements). -/
theorem c6_eligibility_scoring (p : Profile) (e : Str) :
    (eligExperienceState e).1 =
      ((findRanges (strLower e)).any (fun m => decide (m.1 ≤ 4) && decide (3 ≤ m.2)) ||
       (findSingles (strLower e)).any (fun y => decide (2 ≤ y) && decide (y ≤ 5))) ∧
    (eligExperienceState e).2 =
      ((findRanges (strLower e)).filterMap
        (fun m => if 6 ≤ m.1 then some m.1 else Option.none) ++
       (findSingles (strLower e)).filterMap
        (fun y => if 6 ≤ y then some y else Option.none)) ∧
    scoreEligibility p e =
      (if e.isEmpty then (50, EligMatches.noRequirementsFound)
       else
        (((max 0 (min 100 (50 + (if (eligExperienceState e).1 then 30 else 0) +
            (if (eligSkills p e).length ≥ 3 then 20
             else if (eligSkills p e).length ≥ 1 then 10 else 0) -
            40 * ((eligExperienceState e).2.length : ℤ))) : ℤ) : ℚ),
         EligMatches.found (eligExperienceState e).1 (eligSkills p e)
           (eligExperienceState e).2)) := by
  refine ⟨?_, ?_, rfl⟩
  · rw [eligExperienceState, foldl_processSingle_fst, foldl_processRange_fst]
    simp
  · rw [eligExperienceState, foldl_processSingle_snd, foldl_processRange_snd]
    simp

theorem length_filter_mono {α : Type} {p q : α → Bool} {l : List α}
    (h : ∀ a ∈ l, p a = true → q a = true) :
    (l.filter p).length ≤ (l.filter q).length := by
  rw [← List.countP_eq_length_filter, ← List.countP_eq_length_filter]
  exact List.countP_mono_left h

/-- The score bands of `_score_technical` are nondecreasing in the number
of distinct matched skills. -/
theorem techBand_mono {n m : Nat} (h : n ≤ m) : techBand n ≤ techBand m := by
  unfold techBand
  split_ifs <;> omega

/-- The full technical score (bands, +10 eligibility bonus, cap at 100) is
nondecreasing in the match count and the eligibility-match count. -/
theorem techCombined_mono {n₁ n₂ e₁ e₂ : Nat} (hn : n₁ ≤ n₂) (he : e₁ ≤ e₂) :
    min (if e₁ ≥ 3 then min 100 (techBand n₁ + 10) else techBand n₁) 100 ≤
    min (if e₂ ≥ 3 then min 100 (techBand n₂ + 10) else techBand n₂) 100 := by
  have hb := techBand_mono hn
  split_ifs <;> omega

/-- C7: enlarging the set of whole-word skill matches (in particular,
making exactly one additional profile skill match with everything else
unchanged) never decreases the technical sub-score: the band function on
the distinct-hit counts is nondecreasing. -/
theorem c7_technical_monotone (p : Profile) (t₁ e₁ t₂ e₂ : Str)
    (hmono : ∀ s ∈ p.all_skills,
      ((!e₁.isEmpty && wholeWordB s e₁) || wholeWordB s t₁) = true →
      ((!e₂.isEmpty && wholeWordB s e₂) || wholeWordB s t₂) = true)
    (helig : ∀ s ∈ p.all_skills,
      (!e₁.isEmpty && wholeWordB s e₁) = true →
      (!e₂.isEmpty && wholeWordB s e₂) = true) :
    (scoreTechnical p t₁ e₁).1 ≤ (scoreTechnical p t₂ e₂).1 := by
  have hn : (p.all_skills.filter
        (fun s => (!e₁.isEmpty && wholeWordB s e₁) || wholeWordB s t₁)).length ≤
      (p.all_skills.filter
        (fun s => (!e₂.isEmpty && wholeWordB s e₂) || wholeWordB s t₂)).length :=
    length_filter_mono hmono
  have he : (p.all_skills.filter (fun s => !e₁.isEmpty && wholeWordB s e₁)).length ≤
      (p.all_skills.filter (fun s => !e₂.isEmpty && wholeWordB s e₂)).length :=
    length_filter_mono helig
  by_cases h1 : (p.all_skills.filter
      (fun s => (!e₁.isEmpty && wholeWordB s e₁) || wholeWordB s t₁)).isEmpty = true
  · have : (scoreTechnical p t₁ e₁).1 = 0 := by
      simp only [scoreTechnical]
      rw [if_pos h1]
    rw [this]
    exact (scoreTechnical_bounds p t₂ e₂).1
  · have h2 : ¬ (p.all_skills.filter
        (fun s => (!e₂.isEmpty && wholeWordB s e₂) || wholeWordB s t₂)).isEmpty = true := by
      rw [List.isEmpty_iff] at h1 ⊢
      intro h0
      obtain ⟨s, hs⟩ := List.exists_mem_of_ne_nil _ h1
      have hs' := List.mem_filter.mp hs
      have : s ∈ p.all_skills.filter
          (fun s => (!e₂.isEmpty && wholeWordB s e₂) || wholeWordB s t₂) :=
        List.mem_filter.mpr ⟨hs'.1, hmono s hs'.1 hs'.2⟩
      rw [h0] at this
      exact absurd this (List.not_mem_nil s)
    simp only [scoreTechnical]
    rw [if_neg h1, if_neg h2]
    exact Nat.cast_le.mpr (techCombined_mono hn he)

theorem c7_witness :
    (scoreTechnical harveyProfile (str "we use python daily") []).1 ≤
    (scoreTechnical harveyProfile (str "we use python and pytorch daily") []).1 :=
  c7_technical_monotone harveyProfile (str "we use python daily") []
    (str "we use python and pytorch daily") [] (by decide) (by decide)

/-- C8: `score_job` is a function of the posting and of the provider's
input-output behaviour alone — scoring the same posting with providers that
are absent or agree (as deterministic functions) on it yields identical
`ScoringResult`s, every field included. -/
theorem c8_deterministic (p : Profile) (ai₁ ai₂ : Option AIJobScorer) (job : Job)
    (h : aiAgreesOn ai₁ ai₂ job) :
    scoreJob p ai₁ job = scoreJob p ai₂ job := by
  rcases ai₁ with _ | A₁ <;> rcases ai₂ with _ | A₂
  · rfl
  · exact absurd h (by simp [aiAgreesOn])
  · exact absurd h (by simp [aiAgreesOn])
  · have hps : scoreJobAi A₁ job = scoreJobAi A₂ job := by
      rcases hm1 : A₁.modelSim with _ | f <;> rcases hm2 : A₂.modelSim with _ | g
      · simp [scoreJobAi, hm1, hm2]
      · simp only [aiAgreesOn, hm1, hm2] at h
      · simp only [aiAgreesOn, hm1, hm2] at h
      · simp only [aiAgreesOn, hm1, hm2] at h
        simp [scoreJobAi, hm1, hm2, h]
    simp only [scoreJob, hps, Option.isSome_some]

theorem c8_witness :
    scoreJob harveyProfile (some titleLenScorer) jobZ =
    scoreJob harveyProfile (some zeroSimScorer) jobZ :=
  c8_deterministic harveyProfile (some titleLenScorer) (some zeroSimScorer) jobZ
    (by norm_num [aiAgreesOn, titleLenScorer, zeroSimScorer, jobZ])

/-- C9: the reported `matches.tech` list is the full technical match list
truncated to its first 10 entries (profile-iteration order), hence never
longer than 10, while the technical sub-score is computed from the full,
untruncated match list; the industry, role, eligibility and visa keyword
lists are reported untruncated. -/
theorem c9_tech_matches_truncated (p : Profile) (ai : Option AIJobScorer) (job : Job) :
    (scoreJob p ai job).matchLists.tech =
      ((scoreTechnical p (strLower job.title ++ ' ' :: strLower job.description)
        (extractEligibilitySections (strLower job.description))).2).take 10 ∧
    (scoreJob p ai job).matchLists.tech.length ≤ 10 ∧
    (scoreJob p ai job).breakdown.technical =
      round1 (scoreTechnical p (strLower job.title ++ ' ' :: strLower job.description)
        (extractEligibilitySections (strLower job.description))).1 ∧
    (scoreJob p ai job).matchLists.industry =
      (scoreIndustry p (strLower job.title ++ ' ' :: strLower job.description)).2 ∧
    (scoreJob p ai job).matchLists.role =
      (scoreRole p (strLower job.title) (strLower job.description)).2 ∧
    (scoreJob p ai job).matchLists.eligibility =
      (scoreEligibility p (extractEligibilitySections (strLower job.description))).2 ∧
    (scoreJob p ai job).matchLists.visa_keywords =
      (scoreVisa p (strLower job.title ++ ' ' :: strLower job.description)).2.2 := by
  refine ⟨rfl, ?_, rfl, rfl, rfl, rfl, rfl⟩
  rw [show (scoreJob p ai job).matchLists.tech =
      ((scoreTechnical p (strLower job.title ++ ' ' :: strLower job.description)
        (extractEligibilitySections (strLower job.description))).2).take 10 from rfl,
    List.length_take]
  exact min_le_left _ _

/-- C10: whenever the semantic component is inactive (provider absent, or
description empty, or not longer than 50 characters), the returned
breakdown still contains an `ai_semantic` entry and it equals 0.0, and this
reported 0.0 has no effect on `fit_score`: the aggregate uses weight 0 for
`ai_semantic` and the renormalized weights 40/24/20/10/6 for the remaining
categories. -/
theorem c10_inactive_ai_reports_zero (p : Profile) (ai : Option AIJobScorer) (job : Job)
    (h : ai = Option.none ∨ job.description = [] ∨ job.description.length ≤ 50) :
    (scoreJob p ai job).breakdown.ai_semantic = 0 ∧
    (scoreJob p ai job).fit_score =
      round1 (componentsTotal p job 0 0 40 24 20 10 6) := by
  have h0 : round1 (0 : ℚ) = 0 := by with_unfolding_all decide
  have hw1 : (20 * 100 / (20 + 12 + 10 + 5 + 3) : ℚ) = 40 := by norm_num
  have hw2 : (12 * 100 / (20 + 12 + 10 + 5 + 3) : ℚ) = 24 := by norm_num
  have hw3 : (10 * 100 / (20 + 12 + 10 + 5 + 3) : ℚ) = 20 := by norm_num
  have hw4 : (5 * 100 / (20 + 12 + 10 + 5 + 3) : ℚ) = 10 := by norm_num
  have hw5 : (3 * 100 / (20 + 12 + 10 + 5 + 3) : ℚ) = 6 := by norm_num
  rcases ai with _ | A
  · simp only [scoreJob, componentsTotal, Option.isSome_none, Bool.false_and,
      Bool.false_eq_true, if_false, reduceIte, hw1, hw2, hw3, hw4, hw5, h0]
    exact ⟨trivial, trivial⟩
  · have hcond : (!(strLower job.description).isEmpty &&
        decide ((strLower job.description).length > 50)) = false := by
      rcases h with h | h | h
      · exact absurd h (by simp)
      · simp [h, strLower]
      · have hlen : ¬ ((strLower job.description).length > 50) := by
          have hm : (strLower job.description).length = job.description.length :=
            List.length_map _ _
          omega
        simp [hlen]
    simp only [scoreJob, componentsTotal, Option.isSome_some, Bool.true_and, hcond,
      Bool.false_eq_true, if_false, reduceIte, hw1, hw2, hw3, hw4, hw5, h0]
    exact ⟨trivial, trivial⟩

theorem c10_witness :
    (scoreJob harveyProfile Option.none jobZ).breakdown.ai_semantic = 0 ∧
    (scoreJob harveyProfile Option.none jobZ).fit_score =
      round1 (componentsTotal harveyProfile jobZ 0 0 40 24 20 10 6) :=
  c10_inactive_ai_reports_zero harveyProfile Option.none jobZ (Or.inl rfl)
